import Mathlib

/-!
Shallow embedding of the physical-memory and heap-bootstrap subsystem of
AkjoOS (`src/kernel/src/internal/heap.rs` and
`src/kernel/src/internal/memory.rs`).

Physical and virtual addresses are modelled as `Nat`; a frame is identified
by its base address, a page by its page number (address divided by 4096).
The two `linked_list_allocator::LockedHeap` instances and the hardware
mapping primitive `map_to` are external collaborators; they are kept
abstract (a type parameter of heap states, an abstract mapping function),
while everything written in the repository is translated directly.
-/

namespace AkjoOS

/-- Kinds of memory regions as in `bootloader_api::info::MemoryRegionKind`. -/
inductive MemoryRegionKind where
  | usable
  | bootloader
  | unknownUefi (code : Nat)
  | unknownBios (code : Nat)
  deriving DecidableEq, Repr

/-- A memory region `{start, end, kind}` from `bootloader_api::info::MemoryRegion`. -/
structure MemoryRegion where
  start : Nat
  «end» : Nat
  kind : MemoryRegionKind
  deriving DecidableEq, Repr

/-- `PhysFrame::containing_address`: align an address down to its 4096-byte frame base. -/
def containing_address (addr : Nat) : Nat := addr - addr % 4096

/-- The addresses produced by `(region.start..region.end).step_by(4096)` in
`get_usable_regions`: `start, start + 4096, ...` while below `end`. -/
def region_addrs (r : MemoryRegion) : List Nat :=
  (List.range ((r.«end» - r.start + 4095) / 4096)).map (fun k => r.start + 4096 * k)

/-- `memory.rs::get_usable_regions`: filter the memory map to usable regions whose
bounds are both frame-aligned, flatten each into one address per 4096-byte step,
take the containing frame of each address, and skip the first `skip` frames. -/
def get_usable_regions (memory_regions : List MemoryRegion) (skip : Nat) : List Nat :=
  ((((memory_regions.filter (fun r => r.kind = MemoryRegionKind.usable)).filter
      (fun r => r.start % 4096 = 0 && r.«end» % 4096 = 0)).flatMap
      region_addrs).map containing_address).drop skip

/-- `heap.rs::SimpleHeapFrameAllocator`: the bootstrap (re-scanning) frame source. -/
structure SimpleHeapFrameAllocator where
  memory_regions : List MemoryRegion
  next : Nat
  deriving DecidableEq, Repr

/-- `SimpleHeapFrameAllocator::usable_regions`. -/
def SimpleHeapFrameAllocator.usable_regions (a : SimpleHeapFrameAllocator) : List Nat :=
  get_usable_regions a.memory_regions a.next

/-- `SimpleHeapFrameAllocator::allocate_frame`: take the head of the re-derived
stream, increment `next`. Returns the issued frame (if any) and the new state. -/
def SimpleHeapFrameAllocator.allocate_frame (a : SimpleHeapFrameAllocator) :
    Option Nat × SimpleHeapFrameAllocator :=
  (a.usable_regions.head?, { a with next := a.next + 1 })

/-- `heap.rs::HeapFrameAllocator`: the queued frame source. Its deque of frames is
modelled as a list consumed from the front. -/
structure HeapFrameAllocator where
  usable_frames : List Nat
  next : Nat
  deriving DecidableEq, Repr

/-- `HeapFrameAllocator::new`: drain `get_usable_regions(memory_regions, next)`
into the deque. -/
def HeapFrameAllocator.new (memory_regions : List MemoryRegion) (next : Nat) :
    HeapFrameAllocator :=
  { usable_frames := get_usable_regions memory_regions next, next := next }

/-- `HeapFrameAllocator::allocate_frame`: increment `next`, pop the deque's front. -/
def HeapFrameAllocator.allocate_frame (a : HeapFrameAllocator) :
    Option Nat × HeapFrameAllocator :=
  (a.usable_frames.head?, { usable_frames := a.usable_frames.tail, next := a.next + 1 })

/-- Run `n` successive `allocate_frame` calls on the bootstrap source; the list of
results together with the final allocator state. -/
def SimpleHeapFrameAllocator.runCalls (a : SimpleHeapFrameAllocator) :
    Nat → List (Option Nat) × SimpleHeapFrameAllocator
  | 0 => ([], a)
  | n + 1 =>
    let r := a.allocate_frame
    let rest := r.2.runCalls n
    (r.1 :: rest.1, rest.2)

/-- Run `n` successive `allocate_frame` calls on the queued source. -/
def HeapFrameAllocator.runCalls (a : HeapFrameAllocator) :
    Nat → List (Option Nat) × HeapFrameAllocator
  | 0 => ([], a)
  | n + 1 =>
    let r := a.allocate_frame
    let rest := r.2.runCalls n
    (r.1 :: rest.1, rest.2)

/-- The frames actually issued among a list of `allocate_frame` results. -/
def issuedFrames (results : List (Option Nat)) : List Nat :=
  results.filterMap id

/-! Heap window constants from `heap.rs`. -/

/-- `heap.rs::INITIAL_HEAP_START` (`0x_1111_1111_0000`). -/
def INITIAL_HEAP_START : Nat := 0x111111110000

/-- `heap.rs::INITIAL_HEAP_SIZE` (2 MiB). -/
def INITIAL_HEAP_SIZE : Nat := 1024 * 1024 * 2

/-- `heap.rs::MAIN_HEAP_START` (`0x_4444_4444_0000`). -/
def MAIN_HEAP_START : Nat := 0x444444440000

/-- `heap.rs::MAIN_HEAP_SIZE` (64 MiB). -/
def MAIN_HEAP_SIZE : Nat := 1024 * 1024 * 64

/-! The address mapper `init_heap_range`. Pages are identified by page number
(`Page::containing_address` of an address is its address divided by 4096); the
hardware primitive `mapper.map_to` is an external collaborator, passed in as an
abstract function from page, frame and flags to a success-or-error result. -/

/-- `x86_64::PageTableFlags::PRESENT` (bit 0). -/
def PRESENT : Nat := 1

/-- `x86_64::PageTableFlags::WRITABLE` (bit 1). -/
def WRITABLE : Nat := 2

/-- `x86_64::PageTableFlags::USER_ACCESSIBLE` (bit 2). -/
def USER_ACCESSIBLE : Nat := 4

/-- The fixed flag set used by `init_heap_range` for every page:
`PRESENT | WRITABLE | USER_ACCESSIBLE`. -/
def heap_flags : Nat := PRESENT ||| WRITABLE ||| USER_ACCESSIBLE

/-- `x86_64::structures::paging::mapper::MapToError`, for 4 KiB pages. -/
inductive MapToError where
  | frameAllocationFailed
  | parentEntryHugePage
  | pageAlreadyMapped (frame : Nat)
  deriving DecidableEq, Repr

/-- One installed page-table mapping: page number, frame base, flags. -/
structure Mapping where
  page : Nat
  frame : Nat
  flags : Nat
  deriving DecidableEq, Repr

/-- The inclusive page range of `init_heap_range`: from the page containing
`start` to the page containing `start + size - 1` (empty when the end page
precedes the start page, as `Page::range_inclusive` yields). -/
def page_range_inclusive (start size : Nat) : List Nat :=
  let start_page := start / 4096
  let end_page := (start + size - 1) / 4096
  (List.range (end_page + 1 - start_page)).map (fun k => start_page + k)

/-- The loop body of `init_heap_range` over an explicit page list: for each page,
request one frame from the allocator (state `a`, step `allocate`); on `None`
stop with `FrameAllocationFailed`; otherwise install the mapping for that page
with the fixed `heap_flags` through `map_to` and continue. Returns the list of
mappings installed (they are not rolled back on a later failure), the overall
result, and the final allocator state. -/
def init_heap_range_go {A : Type} (map_to : Nat → Nat → Nat → Except MapToError Unit)
    (allocate : A → Option Nat × A) :
    List Nat → A → List Mapping × Except MapToError Unit × A
  | [], a => ([], Except.ok (), a)
  | page :: rest, a =>
    match allocate a with
    | (none, a') => ([], Except.error MapToError.frameAllocationFailed, a')
    | (some frame, a') =>
      match map_to page frame heap_flags with
      | Except.error e => ([], Except.error e, a')
      | Except.ok () =>
        let r := init_heap_range_go map_to allocate rest a'
        ({ page := page, frame := frame, flags := heap_flags } :: r.1, r.2.1, r.2.2)

/-- `heap.rs::init_heap_range`: map the inclusive page range covering
`[start, start + size)`, one freshly allocated frame per page. -/
def init_heap_range {A : Type} (map_to : Nat → Nat → Nat → Except MapToError Unit)
    (allocate : A → Option Nat × A) (a : A) (start size : Nat) :
    List Mapping × Except MapToError Unit × A :=
  init_heap_range_go map_to allocate (page_range_inclusive start size) a

/-! The dual-phase heap manager. The two `linked_list_allocator::LockedHeap`
fields are external collaborators: their state is an abstract type `H` and
their operations (`init`, `alloc`, `dealloc`) are abstract functions, so that
the dispatcher's own logic is exactly the repository's. -/

/-- `core::alloc::Layout`: requested size and alignment. -/
structure Layout where
  size : Nat
  align : Nat
  deriving DecidableEq, Repr

/-- `heap.rs::HeapManager` over an abstract underlying-heap state `H`. -/
structure HeapManager (H : Type) where
  initial_heap : H
  main_heap : H
  initialized : Bool

/-- `HeapManager::new`: both heaps empty, the flag `false`. -/
def HeapManager.new {H : Type} (empty : H) : HeapManager H :=
  { initial_heap := empty, main_heap := empty, initialized := false }

/-- `HeapManager::init_initial_heap`: install the bootstrap heap over
`[start, start + size)` via the underlying heap's `init`. -/
def HeapManager.init_initial_heap {H : Type} (init_fn : H → Nat → Nat → H)
    (m : HeapManager H) (start size : Nat) : HeapManager H :=
  { m with initial_heap := init_fn m.initial_heap start size }

/-- `HeapManager::init_main_heap`. -/
def HeapManager.init_main_heap {H : Type} (init_fn : H → Nat → Nat → H)
    (m : HeapManager H) (start size : Nat) : HeapManager H :=
  { m with main_heap := init_fn m.main_heap start size }

/-- `HeapManager::init` (reached through `init_allocator`): store `true` into the
atomic `initialized` flag. -/
def HeapManager.init {H : Type} (m : HeapManager H) : HeapManager H :=
  { m with initialized := true }

/-- `GlobalAlloc::alloc` for `HeapManager`: read the flag; route to the main heap
when it is set, to the bootstrap (initial) heap when it is not. -/
def HeapManager.alloc {H : Type} (alloc_fn : H → Layout → Option Nat × H)
    (m : HeapManager H) (layout : Layout) : Option Nat × HeapManager H :=
  if m.initialized then
    let r := alloc_fn m.main_heap layout
    (r.1, { m with main_heap := r.2 })
  else
    let r := alloc_fn m.initial_heap layout
    (r.1, { m with initial_heap := r.2 })

/-- `GlobalAlloc::dealloc` for `HeapManager`: same flag-directed routing. -/
def HeapManager.dealloc {H : Type} (dealloc_fn : H → Nat → Layout → H)
    (m : HeapManager H) (ptr : Nat) (layout : Layout) : HeapManager H :=
  if m.initialized then
    { m with main_heap := dealloc_fn m.main_heap ptr layout }
  else
    { m with initial_heap := dealloc_fn m.initial_heap ptr layout }

/-- The operations a client can perform on the shared `ALLOCATOR`. -/
inductive HeapOp where
  | init_initial_heap (start size : Nat)
  | init_main_heap (start size : Nat)
  | init
  | alloc (layout : Layout)
  | dealloc (ptr : Nat) (layout : Layout)

/-- The underlying-heap operations, bundled so a trace of `HeapOp`s can run. -/
structure HeapImpl (H : Type) where
  init_fn : H → Nat → Nat → H
  alloc_fn : H → Layout → Option Nat × H
  dealloc_fn : H → Nat → Layout → H

/-- One `HeapOp` applied to the manager state. -/
def HeapManager.step {H : Type} (impl : HeapImpl H) (m : HeapManager H) :
    HeapOp → HeapManager H
  | HeapOp.init_initial_heap s z => m.init_initial_heap impl.init_fn s z
  | HeapOp.init_main_heap s z => m.init_main_heap impl.init_fn s z
  | HeapOp.init => m.init
  | HeapOp.alloc l => (m.alloc impl.alloc_fn l).2
  | HeapOp.dealloc p l => m.dealloc impl.dealloc_fn p l

/-- A sequence of `HeapOp`s applied in order. -/
def HeapManager.run {H : Type} (impl : HeapImpl H) (m : HeapManager H)
    (ops : List HeapOp) : HeapManager H :=
  ops.foldl (HeapManager.step impl) m

/-- Membership of a pointer in a heap window `[start, start + size)`. -/
def in_window (start size ptr : Nat) : Prop :=
  start ≤ ptr ∧ ptr < start + size

instance (start size ptr : Nat) : Decidable (in_window start size ptr) :=
  inferInstanceAs (Decidable (start ≤ ptr ∧ ptr < start + size))

/-- A concrete stand-in for the external `LockedHeap` used to instantiate the
parametric theorems: a bump allocator over a fixed window. -/
structure BumpHeap where
  start : Nat
  size : Nat
  used : Nat
  deriving DecidableEq, Repr

/-- Install a `BumpHeap` over `[start, start + size)`. -/
def BumpHeap.install (_h : BumpHeap) (start size : Nat) : BumpHeap :=
  { start := start, size := size, used := 0 }

/-- Bump allocation: serve from the window or fail. -/
def BumpHeap.alloc (h : BumpHeap) (l : Layout) : Option Nat × BumpHeap :=
  if h.used + l.size ≤ h.size then
    (some (h.start + h.used), { h with used := h.used + l.size })
  else
    (none, h)

/-- `BumpHeap` deallocation: a no-op on the model state. -/
def BumpHeap.dealloc (h : BumpHeap) (_ptr : Nat) (_l : Layout) : BumpHeap := h

/-- The bundled `BumpHeap` implementation. -/
def BumpHeap.impl : HeapImpl BumpHeap :=
  { init_fn := BumpHeap.install, alloc_fn := BumpHeap.alloc,
    dealloc_fn := BumpHeap.dealloc }

/-- The usable regions of a memory map are pairwise non-overlapping address
ranges. `get_usable_regions` reads the firmware map as given; this is the
well-formedness condition under which its frame stream is duplicate-free. -/
def RegionsDisjoint (regions : List MemoryRegion) : Prop :=
  regions.Pairwise (fun r1 r2 => r1.«end» ≤ r2.start ∨ r2.«end» ≤ r1.start)

instance : DecidablePred RegionsDisjoint := fun regions =>
  inferInstanceAs (Decidable (List.Pairwise _ regions))

/-- A mapping primitive that always succeeds, for instantiating the
`init_heap_range` theorems. -/
def ok_map_to : Nat → Nat → Nat → Except MapToError Unit :=
  fun _ _ _ => Except.ok ()

/-- A memory map whose usable regions overlap (twice the same region): the
degenerate input on which the frame stream repeats itself. -/
def dupMap : List MemoryRegion :=
  [{ start := 4096, «end» := 8192, kind := MemoryRegionKind.usable },
   { start := 4096, «end» := 8192, kind := MemoryRegionKind.usable }]

/-- A small well-formed memory map: two disjoint aligned usable regions
(frames 4096, 8192 and 16384). -/
def demoMap : List MemoryRegion :=
  [{ start := 4096, «end» := 12288, kind := MemoryRegionKind.usable },
   { start := 16384, «end» := 20480, kind := MemoryRegionKind.usable }]

/-- A usable region whose end is not 4096-aligned. -/
def unalignedRegion : MemoryRegion :=
  { start := 4096, «end» := 8193, kind := MemoryRegionKind.usable }

/-- A demonstration allocation layout. -/
def demoLayout : Layout := { size := 8, align := 8 }

/-- A `BumpHeap`-backed manager right after both heaps are installed, before
the switchover (flag still `false`). -/
def demoManager : HeapManager BumpHeap :=
  { initial_heap := BumpHeap.install { start := 0, size := 0, used := 0 }
      INITIAL_HEAP_START INITIAL_HEAP_SIZE,
    main_heap := BumpHeap.install { start := 0, size := 0, used := 0 }
      MAIN_HEAP_START MAIN_HEAP_SIZE,
    initialized := false }

/-- The same manager after the switchover (flag `true`). -/
def demoManagerMain : HeapManager BumpHeap := demoManager.init

/-- A demonstration operation trace. -/
def demoOps : List HeapOp :=
  [HeapOp.alloc demoLayout, HeapOp.dealloc 0 demoLayout,
   HeapOp.init_main_heap MAIN_HEAP_START MAIN_HEAP_SIZE]

/-- The regions that survive both filters of `get_usable_regions`. -/
def surviving_regions (regs : List MemoryRegion) : List MemoryRegion :=
  (regs.filter (fun r => r.kind = MemoryRegionKind.usable)).filter
    (fun r => r.start % 4096 = 0 && r.«end» % 4096 = 0)

/-- The frames a `SimpleHeapFrameAllocator` state will still yield. -/
def SimpleHeapFrameAllocator.remaining (a : SimpleHeapFrameAllocator) : List Nat :=
  get_usable_regions a.memory_regions a.next

/-! Helper lemmas about the frame stream and the two frame sources. -/

lemma get_usable_regions_drop (regs : List MemoryRegion) (c : Nat) :
    get_usable_regions regs c = (get_usable_regions regs 0).drop c := by
  simp [get_usable_regions]

lemma get_usable_regions_tail (regs : List MemoryRegion) (c : Nat) :
    (get_usable_regions regs c).tail = get_usable_regions regs (c + 1) := by
  simp only [get_usable_regions]
  exact List.tail_drop ..

lemma simple_allocate_frame_eq (a : SimpleHeapFrameAllocator) :
    a.allocate_frame =
      ((get_usable_regions a.memory_regions a.next).head?,
        { memory_regions := a.memory_regions, next := a.next + 1 }) := rfl

lemma simple_runCalls_next (regs : List MemoryRegion) :
    ∀ (n c : Nat),
      ((SimpleHeapFrameAllocator.runCalls { memory_regions := regs, next := c } n).2).next
        = c + n := by
  intro n
  induction n with
  | zero => intro c; simp [SimpleHeapFrameAllocator.runCalls]
  | succ n ih =>
    intro c
    simp only [SimpleHeapFrameAllocator.runCalls, SimpleHeapFrameAllocator.allocate_frame]
    rw [ih (c + 1)]
    omega

lemma simple_runCalls_issued (regs : List MemoryRegion) :
    ∀ (n c : Nat),
      issuedFrames (SimpleHeapFrameAllocator.runCalls { memory_regions := regs, next := c } n).1
        = ((get_usable_regions regs 0).drop c).take n := by
  intro n
  induction n with
  | zero => intro c; simp [SimpleHeapFrameAllocator.runCalls, issuedFrames]
  | succ n ih =>
    intro c
    simp only [SimpleHeapFrameAllocator.runCalls, SimpleHeapFrameAllocator.allocate_frame,
      SimpleHeapFrameAllocator.usable_regions]
    rcases hseq : (get_usable_regions regs 0).drop c with _ | ⟨x, xs⟩
    · have h1 : get_usable_regions regs c = [] := by
        rw [get_usable_regions_drop, hseq]
      have h2 : (get_usable_regions regs 0).drop (c + 1) = [] := by
        have ht := List.tail_drop (l := get_usable_regions regs 0) (n := c)
        rw [hseq] at ht
        simpa using ht.symm
      have ihm := ih (c + 1)
      simp only [issuedFrames] at ihm ⊢
      simp [h1, List.filterMap_cons, ihm, h2, hseq]
    · have h1 : get_usable_regions regs c = x :: xs := by
        rw [get_usable_regions_drop, hseq]
      have h2 : (get_usable_regions regs 0).drop (c + 1) = xs := by
        have ht := List.tail_drop (l := get_usable_regions regs 0) (n := c)
        rw [hseq] at ht
        simpa using ht.symm
      have ihm := ih (c + 1)
      simp only [issuedFrames] at ihm ⊢
      simp [h1, List.filterMap_cons, ihm, h2, hseq]

lemma queued_runCalls_issued :
    ∀ (n : Nat) (l : List Nat) (c : Nat),
      issuedFrames (HeapFrameAllocator.runCalls { usable_frames := l, next := c } n).1
        = l.take n := by
  intro n
  induction n with
  | zero => intro l c; simp [HeapFrameAllocator.runCalls, issuedFrames]
  | succ n ih =>
    intro l c
    rcases l with _ | ⟨x, xs⟩
    · have ihm := ih [] (c + 1)
      simp only [issuedFrames] at ihm ⊢
      simp [HeapFrameAllocator.runCalls, HeapFrameAllocator.allocate_frame,
        List.filterMap_cons, ihm]
    · have ihm := ih xs (c + 1)
      simp only [issuedFrames] at ihm ⊢
      simp [HeapFrameAllocator.runCalls, HeapFrameAllocator.allocate_frame,
        List.filterMap_cons, ihm]

lemma queued_simple_runCalls :
    ∀ (n : Nat) (regs : List MemoryRegion) (c : Nat),
      (HeapFrameAllocator.runCalls { usable_frames := get_usable_regions regs c, next := c } n).1
        = (SimpleHeapFrameAllocator.runCalls { memory_regions := regs, next := c } n).1 := by
  intro n
  induction n with
  | zero => intro regs c; simp [HeapFrameAllocator.runCalls, SimpleHeapFrameAllocator.runCalls]
  | succ n ih =>
    intro regs c
    simp only [HeapFrameAllocator.runCalls, SimpleHeapFrameAllocator.runCalls,
      HeapFrameAllocator.allocate_frame, SimpleHeapFrameAllocator.allocate_frame,
      SimpleHeapFrameAllocator.usable_regions]
    rw [get_usable_regions_tail regs c, ih regs (c + 1)]

/-! Duplicate-freeness of the frame stream over a map with pairwise
non-overlapping usable regions, and unconditional frame alignment. -/

lemma region_addrs_nodup (r : MemoryRegion) : (region_addrs r).Nodup := by
  unfold region_addrs
  refine List.Nodup.map ?_ (List.nodup_range _)
  intro a b hab
  have hab' : r.start + 4096 * a = r.start + 4096 * b := hab
  omega

lemma region_addrs_bounds (r : MemoryRegion) (x : Nat) (hx : x ∈ region_addrs r) :
    r.start ≤ x ∧ x < r.«end» := by
  unfold region_addrs at hx
  simp only [List.mem_map, List.mem_range] at hx
  obtain ⟨k, hk, rfl⟩ := hx
  omega

lemma region_addrs_disjoint (r1 r2 : MemoryRegion)
    (h : r1.«end» ≤ r2.start ∨ r2.«end» ≤ r1.start) :
    List.Disjoint (region_addrs r1) (region_addrs r2) := by
  intro x hx1 hx2
  have b1 := region_addrs_bounds r1 x hx1
  have b2 := region_addrs_bounds r2 x hx2
  omega

lemma surviving_regions_aligned (regs : List MemoryRegion) (r : MemoryRegion)
    (hr : r ∈ surviving_regions regs) : r.start % 4096 = 0 ∧ r.«end» % 4096 = 0 := by
  unfold surviving_regions at hr
  have := (List.mem_filter.mp hr).2
  simpa using this

lemma surviving_flatMap_aligned (regs : List MemoryRegion) (x : Nat)
    (hx : x ∈ (surviving_regions regs).flatMap region_addrs) : x % 4096 = 0 := by
  simp only [List.mem_flatMap] at hx
  obtain ⟨r, hr, hxr⟩ := hx
  have halign := (surviving_regions_aligned regs r hr).1
  unfold region_addrs at hxr
  simp only [List.mem_map, List.mem_range] at hxr
  obtain ⟨k, _, rfl⟩ := hxr
  omega

lemma get_usable_regions_eq_flatMap (regs : List MemoryRegion) (skip : Nat) :
    get_usable_regions regs skip
      = (((surviving_regions regs).flatMap region_addrs).map containing_address).drop skip := by
  rfl

lemma usable_stream_nodup (regs : List MemoryRegion) (h : RegionsDisjoint regs) :
    (get_usable_regions regs 0).Nodup := by
  rw [get_usable_regions_eq_flatMap, List.drop_zero]
  have hflat : ((surviving_regions regs).flatMap region_addrs).Nodup := by
    rw [List.nodup_flatMap]
    refine ⟨fun r _ => region_addrs_nodup r, ?_⟩
    have hp : (surviving_regions regs).Pairwise
        (fun r1 r2 => r1.«end» ≤ r2.start ∨ r2.«end» ≤ r1.start) := by
      refine List.Pairwise.sublist ?_ h
      exact (List.filter_sublist _).trans (List.filter_sublist _)
    exact hp.imp (fun hab => region_addrs_disjoint _ _ hab)
  have hmap : ((surviving_regions regs).flatMap region_addrs).map containing_address
      = (surviving_regions regs).flatMap region_addrs := by
    have hcong : ∀ x ∈ (surviving_regions regs).flatMap region_addrs,
        containing_address x = id x := by
      intro x hx
      have := surviving_flatMap_aligned regs x hx
      unfold containing_address
      simp [this]
    rw [List.map_congr_left hcong, List.map_id]
  rw [hmap]
  exact hflat

lemma stream_aligned (regs : List MemoryRegion) (skip : Nat) (f : Nat)
    (hf : f ∈ get_usable_regions regs skip) : f % 4096 = 0 := by
  rw [get_usable_regions_eq_flatMap] at hf
  have hf2 := List.mem_of_mem_drop hf
  simp only [List.mem_map] at hf2
  obtain ⟨x, _, rfl⟩ := hf2
  unfold containing_address
  omega

/-! Helper lemmas about the address mapper `init_heap_range`. -/

lemma init_heap_range_go_flags {A : Type} (map_to : Nat → Nat → Nat → Except MapToError Unit)
    (allocate : A → Option Nat × A) :
    ∀ (ps : List Nat) (a : A) (mp : Mapping),
      mp ∈ (init_heap_range_go map_to allocate ps a).1 → mp.flags = heap_flags := by
  intro ps
  induction ps with
  | nil => intro a mp hmp; simp [init_heap_range_go] at hmp
  | cons p rest ih =>
    intro a mp hmp
    simp only [init_heap_range_go] at hmp
    rcases halloc : allocate a with ⟨o, a'⟩
    rw [halloc] at hmp
    rcases o with _ | frame
    · simp at hmp
    · simp only at hmp
      rcases hmap : map_to p frame heap_flags with e | u
      · rw [hmap] at hmp; simp at hmp
      · rw [hmap] at hmp
        simp only [List.mem_cons] at hmp
        rcases hmp with rfl | hmp
        · rfl
        · exact ih a' mp hmp

lemma page_range_inclusive_length (start size : Nat)
    (halign : start % 4096 = 0) (hpos : 0 < size) :
    (page_range_inclusive start size).length = (size + 4095) / 4096 := by
  simp only [page_range_inclusive, List.length_map, List.length_range]
  omega

/-- Exact frame-request accounting for the mapping loop, over any frame source
presented as a stream: `frames a` is the list of frames the source will still
yield from state `a`, and `count a` its running request counter. One loop
iteration per page either consumes the stream's head or fails; with enough
frames the loop succeeds after exactly one request per page, otherwise it
stops at the first exhausted request with `FrameAllocationFailed`. -/
lemma init_heap_range_go_spec {A : Type} (map_to : Nat → Nat → Nat → Except MapToError Unit)
    (allocate : A → Option Nat × A) (frames : A → List Nat) (count : A → Nat)
    (hs : ∀ a, (allocate a).1 = (frames a).head?)
    (hf : ∀ a, frames (allocate a).2 = (frames a).tail)
    (hc : ∀ a, count (allocate a).2 = count a + 1)
    (hm : ∀ p f fl, map_to p f fl = Except.ok ()) :
    ∀ (ps : List Nat) (a : A),
      (ps.length ≤ (frames a).length →
        (init_heap_range_go map_to allocate ps a).2.1 = Except.ok ()
        ∧ (init_heap_range_go map_to allocate ps a).1.length = ps.length
        ∧ frames (init_heap_range_go map_to allocate ps a).2.2 = (frames a).drop ps.length
        ∧ count (init_heap_range_go map_to allocate ps a).2.2 = count a + ps.length)
      ∧ ((frames a).length < ps.length →
        (init_heap_range_go map_to allocate ps a).2.1
            = Except.error MapToError.frameAllocationFailed
        ∧ count (init_heap_range_go map_to allocate ps a).2.2
            = count a + (frames a).length + 1) := by
  intro ps
  induction ps with
  | nil =>
    intro a
    constructor
    · intro _
      simp [init_heap_range_go]
    · intro hlt
      simp at hlt
  | cons p rest ih =>
    intro a
    rcases halloc : allocate a with ⟨o, a'⟩
    have ho : o = (frames a).head? := by rw [← hs a, halloc]
    have hfa : frames a' = (frames a).tail := by rw [← hf a, halloc]
    have hca : count a' = count a + 1 := by rw [← hc a, halloc]
    rcases hfr : frames a with _ | ⟨x, xs⟩
    · rw [hfr] at ho hfa
      have hno : o = none := by simpa using ho
      subst hno
      constructor
      · intro hle
        simp at hle
      · intro _
        simp only [init_heap_range_go, halloc]
        refine ⟨trivial, ?_⟩
        simp only [List.length_nil]
        omega
    · rw [hfr] at ho hfa
      have hsome : o = some x := by simpa using ho
      subst hsome
      have hfa' : frames a' = xs := by simpa using hfa
      constructor
      · intro hle
        simp only [List.length_cons] at hle
        have hle' : rest.length ≤ (frames a').length := by
          rw [hfa']; omega
        obtain ⟨hok, hlen, hdrop, hcount⟩ := (ih a').1 hle'
        simp only [init_heap_range_go, halloc, hm p x heap_flags]
        refine ⟨hok, by simp [hlen], ?_, ?_⟩
        · rw [hdrop, hfa']
          simp
        · rw [hcount, hca]
          simp only [List.length_cons]
          omega
      · intro hlt
        simp only [List.length_cons] at hlt
        have hlt' : (frames a').length < rest.length := by
          rw [hfa']; omega
        obtain ⟨herr, hcount⟩ := (ih a').2 hlt'
        simp only [init_heap_range_go, halloc, hm p x heap_flags]
        refine ⟨herr, ?_⟩
        rw [hcount, hca, hfa']
        simp only [List.length_cons]
        omega

/-! The two frame sources satisfy the stream-source laws used by
`init_heap_range_go_spec`: the remaining-frame list of a state, and `next`
as the request counter. -/

lemma simple_stream_head (a : SimpleHeapFrameAllocator) :
    a.allocate_frame.1 = a.remaining.head? := rfl

lemma simple_stream_tail (a : SimpleHeapFrameAllocator) :
    a.allocate_frame.2.remaining = a.remaining.tail := by
  simp only [SimpleHeapFrameAllocator.allocate_frame, SimpleHeapFrameAllocator.remaining]
  exact (get_usable_regions_tail a.memory_regions a.next).symm

lemma simple_stream_count (a : SimpleHeapFrameAllocator) :
    a.allocate_frame.2.next = a.next + 1 := rfl

lemma queued_stream_head (a : HeapFrameAllocator) :
    a.allocate_frame.1 = a.usable_frames.head? := rfl

lemma queued_stream_tail (a : HeapFrameAllocator) :
    a.allocate_frame.2.usable_frames = a.usable_frames.tail := rfl

lemma queued_stream_count (a : HeapFrameAllocator) :
    a.allocate_frame.2.next = a.next + 1 := rfl

/-! Helper lemma about the dispatcher's flag. -/

lemma heapManager_step_initialized {H : Type} (impl : HeapImpl H) (m : HeapManager H)
    (op : HeapOp) (h : m.initialized = true) :
    (HeapManager.step impl m op).initialized = true := by
  cases op with
  | init_initial_heap s z => simpa [HeapManager.step, HeapManager.init_initial_heap] using h
  | init_main_heap s z => simpa [HeapManager.step, HeapManager.init_main_heap] using h
  | init => simp [HeapManager.step, HeapManager.init]
  | alloc l => simp [HeapManager.step, HeapManager.alloc, h]
  | dealloc p l => simp [HeapManager.step, HeapManager.dealloc, h]

lemma heapManager_run_initialized {H : Type} (impl : HeapImpl H) :
    ∀ (ops : List HeapOp) (m : HeapManager H), m.initialized = true →
      (HeapManager.run impl m ops).initialized = true := by
  intro ops
  induction ops with
  | nil => intro m h; simpa [HeapManager.run] using h
  | cons op rest ih =>
    intro m h
    have hstep := heapManager_step_initialized impl m op h
    simpa [HeapManager.run] using ih (HeapManager.step impl m op) hstep

/-! Claim theorems. -/

/-- C1: for every allocation or deallocation request, the `HeapManager`
dispatcher reads the `initialized` flag and routes the request to the main heap
when the flag is set and to the bootstrap (initial) heap when it is not; hence
(given that each underlying heap serves pointers only from its own window, the
external `LockedHeap` contract) before `init_allocator` every `alloc` call is
satisfied from the bootstrap window and after it every `alloc` call is
satisfied from the main window. -/
theorem heapManager_dispatch_routes_by_flag {H : Type}
    (alloc_fn : H → Layout → Option Nat × H) (dealloc_fn : H → Nat → Layout → H)
    (m : HeapManager H) (layout : Layout) (ptr : Nat)
    (boot_serves : ∀ p, (alloc_fn m.initial_heap layout).1 = some p →
      in_window INITIAL_HEAP_START INITIAL_HEAP_SIZE p)
    (main_serves : ∀ p, (alloc_fn m.main_heap layout).1 = some p →
      in_window MAIN_HEAP_START MAIN_HEAP_SIZE p) :
    (m.initialized = false →
      HeapManager.alloc alloc_fn m layout =
        ((alloc_fn m.initial_heap layout).1,
          { m with initial_heap := (alloc_fn m.initial_heap layout).2 })
      ∧ HeapManager.dealloc dealloc_fn m ptr layout =
          { m with initial_heap := dealloc_fn m.initial_heap ptr layout }
      ∧ ∀ p, (HeapManager.alloc alloc_fn m layout).1 = some p →
          in_window INITIAL_HEAP_START INITIAL_HEAP_SIZE p)
    ∧ (m.initialized = true →
      HeapManager.alloc alloc_fn m layout =
        ((alloc_fn m.main_heap layout).1,
          { m with main_heap := (alloc_fn m.main_heap layout).2 })
      ∧ HeapManager.dealloc dealloc_fn m ptr layout =
          { m with main_heap := dealloc_fn m.main_heap ptr layout }
      ∧ ∀ p, (HeapManager.alloc alloc_fn m layout).1 = some p →
          in_window MAIN_HEAP_START MAIN_HEAP_SIZE p) := by
  constructor
  · intro h
    refine ⟨by simp [HeapManager.alloc, h], by simp [HeapManager.dealloc, h], ?_⟩
    intro p hp
    apply boot_serves
    simpa [HeapManager.alloc, h] using hp
  · intro h
    refine ⟨by simp [HeapManager.alloc, h], by simp [HeapManager.dealloc, h], ?_⟩
    intro p hp
    apply main_serves
    simpa [HeapManager.alloc, h] using hp

/-- Witness for C1: on a concrete bump-heap instantiation with the flag unset,
the dispatcher's answer lies in the bootstrap window. -/
theorem heapManager_dispatch_routes_by_flag_witness :
    in_window INITIAL_HEAP_START INITIAL_HEAP_SIZE INITIAL_HEAP_START :=
  ((heapManager_dispatch_routes_by_flag BumpHeap.alloc BumpHeap.dealloc demoManager
      demoLayout 0
      (by
        intro p hp
        have hx : (BumpHeap.alloc demoManager.initial_heap demoLayout).1
            = some INITIAL_HEAP_START := by decide
        rw [hx] at hp
        obtain rfl := Option.some.inj hp
        decide)
      (by
        intro p hp
        have hx : (BumpHeap.alloc demoManager.main_heap demoLayout).1
            = some MAIN_HEAP_START := by decide
        rw [hx] at hp
        obtain rfl := Option.some.inj hp
        decide)).1 rfl).2.2 INITIAL_HEAP_START (by decide)

/-- C3: the `HeapManager` `initialized` flag transitions false→true exactly once
and never reverses: the link-time state has the flag `false`, `init` sets it to
`true`, no operation other than `init` changes it, and from any flag-set state
no sequence of operations ever takes it back to `false`. -/
theorem heapManager_initialized_one_way {H : Type} (impl : HeapImpl H) (e : H)
    (ops : List HeapOp) (m : HeapManager H) (h : m.initialized = true) :
    (HeapManager.new e).initialized = false
    ∧ ((HeapManager.new e).init).initialized = true
    ∧ (∀ (m' : HeapManager H) (op : HeapOp), op ≠ HeapOp.init →
        (HeapManager.step impl m' op).initialized = m'.initialized)
    ∧ (HeapManager.run impl m ops).initialized = true := by
  refine ⟨rfl, rfl, ?_, heapManager_run_initialized impl ops m h⟩
  intro m' op hop
  cases op with
  | init_initial_heap s z => simp [HeapManager.step, HeapManager.init_initial_heap]
  | init_main_heap s z => simp [HeapManager.step, HeapManager.init_main_heap]
  | init => exact absurd rfl hop
  | alloc l =>
    by_cases hm : m'.initialized
    · simp [HeapManager.step, HeapManager.alloc, hm]
    · simp [HeapManager.step, HeapManager.alloc, hm]
  | dealloc p l =>
    by_cases hm : m'.initialized
    · simp [HeapManager.step, HeapManager.dealloc, hm]
    · simp [HeapManager.step, HeapManager.dealloc, hm]

/-- Witness for C3: after the switchover, a concrete operation trace leaves the
flag set. -/
theorem heapManager_initialized_one_way_witness :
    (HeapManager.run BumpHeap.impl demoManagerMain demoOps).initialized = true :=
  (heapManager_initialized_one_way BumpHeap.impl
    { start := 0, size := 0, used := 0 } demoOps demoManagerMain rfl).2.2.2

/-- C9: deallocation routing depends only on the current flag value, not on
which heap served the pointer: a pointer allocated while the flag was false
(hence by the bootstrap heap — the alloc leaves the main heap untouched) is,
when deallocated after the flag is set, handed to the main heap, and the
bootstrap heap that allocated it never sees the `dealloc`. -/
theorem heapManager_dealloc_routes_by_current_flag {H : Type}
    (alloc_fn : H → Layout → Option Nat × H) (dealloc_fn : H → Nat → Layout → H)
    (m0 : HeapManager H) (h0 : m0.initialized = false) (layout : Layout) (p : Nat)
    (hp : (HeapManager.alloc alloc_fn m0 layout).1 = some p)
    (m1 : HeapManager H) (h1 : m1.initialized = true) (layout' : Layout) :
    (HeapManager.alloc alloc_fn m0 layout).2.main_heap = m0.main_heap
    ∧ HeapManager.dealloc dealloc_fn m1 p layout'
        = { m1 with main_heap := dealloc_fn m1.main_heap p layout' }
    ∧ (HeapManager.dealloc dealloc_fn m1 p layout').initial_heap = m1.initial_heap := by
  refine ⟨?_, ?_, ?_⟩
  · simp [HeapManager.alloc, h0]
  · simp [HeapManager.dealloc, h1]
  · simp [HeapManager.dealloc, h1]

/-- Witness for C9: a pointer obtained from the bootstrap phase is deallocated
by the main heap once the flag is set; the bootstrap heap state is unchanged. -/
theorem heapManager_dealloc_routes_by_current_flag_witness :
    (HeapManager.dealloc BumpHeap.dealloc demoManagerMain INITIAL_HEAP_START
      demoLayout).initial_heap = demoManagerMain.initial_heap :=
  (heapManager_dealloc_routes_by_current_flag BumpHeap.alloc BumpHeap.dealloc
    demoManager rfl demoLayout INITIAL_HEAP_START (by decide)
    demoManagerMain rfl demoLayout).2.2

/-- C6: the two frame-source strategies implement the same conceptual
operation: for the same memory map and the same starting cursor, the sequence
of `Option` frame results of successive `allocate_frame` calls on a
`SimpleHeapFrameAllocator` (re-scanning source) equals the one produced by a
`HeapFrameAllocator` (queued source). -/
theorem frame_sources_equivalent (regs : List MemoryRegion) (c n : Nat) :
    ((HeapFrameAllocator.new regs c).runCalls n).1
      = (SimpleHeapFrameAllocator.runCalls { memory_regions := regs, next := c } n).1 := by
  have hnew : HeapFrameAllocator.new regs c
      = { usable_frames := get_usable_regions regs c, next := c } := rfl
  rw [hnew]
  exact queued_simple_runCalls n regs c

/-- C7: a region whose kind is not `Usable`, or a usable region whose start or
end is not 4096-aligned, contributes zero frames to the scanned frame stream
(and hence to every frame source): deleting it from the map leaves the stream
unchanged, for every skip value. Unaligned usable regions are dropped entirely,
never partially used. -/
theorem bad_regions_contribute_no_frames (r : MemoryRegion)
    (h : r.kind ≠ MemoryRegionKind.usable ∨ r.start % 4096 ≠ 0 ∨ r.«end» % 4096 ≠ 0)
    (l1 l2 : List MemoryRegion) (skip : Nat) :
    get_usable_regions (l1 ++ r :: l2) skip = get_usable_regions (l1 ++ l2) skip := by
  have hsurv : surviving_regions (l1 ++ r :: l2) = surviving_regions (l1 ++ l2) := by
    unfold surviving_regions
    by_cases hk : r.kind = MemoryRegionKind.usable
    · rcases h with h | h | h
      · exact absurd hk h
      · simp [List.filter_append, List.filter_cons, hk, h]
      · simp [List.filter_append, List.filter_cons, hk, h]
    · simp [List.filter_append, List.filter_cons, hk]
  rw [get_usable_regions_eq_flatMap, get_usable_regions_eq_flatMap, hsurv]

/-- Witness for C7: appending a usable but end-unaligned region to a concrete
map leaves the frame stream unchanged. -/
theorem bad_regions_contribute_no_frames_witness :
    get_usable_regions (demoMap ++ unalignedRegion :: []) 0
      = get_usable_regions (demoMap ++ []) 0 :=
  bad_regions_contribute_no_frames unalignedRegion
    (Or.inr (Or.inr (by decide))) demoMap [] 0

/-- C8 (amended): every `allocate_frame` call on the bootstrap source
re-derives the frame stream from the immutable region list with
`skip = cursor`, takes its first element, and increments the cursor by exactly
one; hence the cursor counts the allocation calls made, and it equals the
number of frames actually issued as long as the stream has not been exhausted
(`n` calls with `n` at most the stream length issue exactly `n` frames). After
exhaustion the cursor keeps incrementing while no frame is issued, so there the
cursor exceeds the issued count. -/
theorem simple_allocator_cursor_counts_calls (a : SimpleHeapFrameAllocator)
    (regs : List MemoryRegion) (n : Nat)
    (hn : n ≤ (get_usable_regions regs 0).length) :
    a.allocate_frame =
      ((get_usable_regions a.memory_regions a.next).head?,
        { memory_regions := a.memory_regions, next := a.next + 1 })
    ∧ ((SimpleHeapFrameAllocator.runCalls { memory_regions := regs, next := 0 } n).2).next = n
    ∧ (issuedFrames
        (SimpleHeapFrameAllocator.runCalls { memory_regions := regs, next := 0 } n).1).length
        = n := by
  refine ⟨rfl, by simpa using simple_runCalls_next regs n 0, ?_⟩
  rw [simple_runCalls_issued regs n 0, List.drop_zero, List.length_take]
  omega

/-- Witness for C8: on a concrete map, two calls issue two frames and leave the
cursor at two. -/
theorem simple_allocator_cursor_counts_calls_witness :
    (issuedFrames
      (SimpleHeapFrameAllocator.runCalls { memory_regions := demoMap, next := 0 } 2).1).length
      = 2 :=
  (simple_allocator_cursor_counts_calls { memory_regions := demoMap, next := 0 }
    demoMap 2 (by decide)).2.2

/-- Counterexample to C8 as stated: on an empty memory map one `allocate_frame`
call issues no frame yet still increments the cursor to 1, so the cursor does
not equal the count of frames already issued. -/
theorem simple_allocator_cursor_counterexample :
    ¬ (((SimpleHeapFrameAllocator.runCalls { memory_regions := [], next := 0 } 1).2).next
        = (issuedFrames
            (SimpleHeapFrameAllocator.runCalls { memory_regions := [], next := 0 } 1).1).length) := by
  decide

/-- C5 (amended): for every memory map and every `N`, the frames issued by `N`
sequential `allocate_frame` calls on a freshly constructed bootstrap source are
4096-aligned; and when the map's usable regions are pairwise non-overlapping,
those frames are moreover pairwise distinct. -/
theorem bootstrap_frames_distinct_aligned (regs : List MemoryRegion) (n : Nat) :
    (∀ f ∈ issuedFrames
        (SimpleHeapFrameAllocator.runCalls { memory_regions := regs, next := 0 } n).1,
        f % 4096 = 0)
    ∧ (RegionsDisjoint regs →
        (issuedFrames
          (SimpleHeapFrameAllocator.runCalls { memory_regions := regs, next := 0 } n).1).Nodup) := by
  rw [simple_runCalls_issued regs n 0, List.drop_zero]
  constructor
  · intro f hf
    exact stream_aligned regs 0 f (List.mem_of_mem_take hf)
  · intro h
    exact List.Nodup.sublist (List.take_sublist _ _) (usable_stream_nodup regs h)

/-- Witness for C5: three calls on a concrete disjoint map issue pairwise
distinct frames, and a concretely issued frame is 4096-aligned. -/
theorem bootstrap_frames_distinct_aligned_witness :
    (issuedFrames
      (SimpleHeapFrameAllocator.runCalls { memory_regions := demoMap, next := 0 } 3).1).Nodup
    ∧ 4096 % 4096 = 0 :=
  ⟨(bootstrap_frames_distinct_aligned demoMap 3).2 (by decide),
   (bootstrap_frames_distinct_aligned demoMap 3).1 4096 (by decide)⟩

/-- Counterexample to C5 as stated: on a map whose usable regions overlap
(the same region listed twice), two sequential calls issue the same frame
twice. -/
theorem bootstrap_frames_distinct_counterexample :
    ¬ (issuedFrames
        (SimpleHeapFrameAllocator.runCalls { memory_regions := dupMap, next := 0 } 2).1).Nodup := by
  decide

/-- C4 (amended): over a memory map whose usable regions are pairwise
non-overlapping, if the bootstrap source has issued `k` frames, a queued source
constructed over the same map with `skip = k` holds exactly the rest of the
stream, and both the frames it holds and the frames it later returns are
disjoint from the `k` frames already issued. -/
theorem queued_source_disjoint_from_issued (regs : List MemoryRegion)
    (h : RegionsDisjoint regs) (k n : Nat) :
    (HeapFrameAllocator.new regs k).usable_frames = (get_usable_regions regs 0).drop k
    ∧ List.Disjoint
        (issuedFrames
          (SimpleHeapFrameAllocator.runCalls { memory_regions := regs, next := 0 } k).1)
        (HeapFrameAllocator.new regs k).usable_frames
    ∧ List.Disjoint
        (issuedFrames
          (SimpleHeapFrameAllocator.runCalls { memory_regions := regs, next := 0 } k).1)
        (issuedFrames ((HeapFrameAllocator.new regs k).runCalls n).1) := by
  have hnew : (HeapFrameAllocator.new regs k).usable_frames
      = (get_usable_regions regs 0).drop k := by
    show get_usable_regions regs k = (get_usable_regions regs 0).drop k
    exact get_usable_regions_drop regs k
  have hdisj : List.Disjoint ((get_usable_regions regs 0).take k)
      ((get_usable_regions regs 0).drop k) :=
    List.disjoint_take_drop (usable_stream_nodup regs h) (le_refl k)
  refine ⟨hnew, ?_, ?_⟩
  · rw [simple_runCalls_issued regs k 0, List.drop_zero, hnew]
    exact hdisj
  · rw [simple_runCalls_issued regs k 0, List.drop_zero]
    have hq : issuedFrames ((HeapFrameAllocator.new regs k).runCalls n).1
        = ((get_usable_regions regs 0).drop k).take n := by
      have hnew2 : HeapFrameAllocator.new regs k
          = { usable_frames := get_usable_regions regs k, next := k } := rfl
      rw [hnew2, queued_runCalls_issued n _ k, get_usable_regions_drop]
    rw [hq]
    intro x hx1 hx2
    exact hdisj hx1 (List.mem_of_mem_take hx2)

/-- Witness for C4: on a concrete disjoint map, with one frame issued by the
bootstrap source, the queued source with `skip = 1` holds only other frames. -/
theorem queued_source_disjoint_from_issued_witness :
    List.Disjoint
      (issuedFrames
        (SimpleHeapFrameAllocator.runCalls { memory_regions := demoMap, next := 0 } 1).1)
      (HeapFrameAllocator.new demoMap 1).usable_frames :=
  (queued_source_disjoint_from_issued demoMap (by decide) 1 2).2.1

/-- Counterexample to C4 as stated: on a map whose usable regions overlap, the
queued source constructed with `skip = 1` still holds the frame the bootstrap
source already issued. -/
theorem queued_source_disjoint_counterexample :
    ¬ List.Disjoint
        (issuedFrames
          (SimpleHeapFrameAllocator.runCalls { memory_regions := dupMap, next := 0 } 1).1)
        (HeapFrameAllocator.new dupMap 1).usable_frames := by
  intro hd
  exact hd (show (4096 : Nat) ∈ _ by decide) (by decide)

/-- C10: every page mapped by `init_heap_range` — whatever the window and the
frame source, hence for both the bootstrap and the main heap window — is
installed with the fixed flag set `PRESENT | WRITABLE | USER_ACCESSIBLE`
(bits 0, 1 and 2 all set, user-accessible included); `init_heap_range` takes no
flags parameter, so the flags are not chosen by the caller. -/
theorem init_heap_range_fixed_flags {A : Type}
    (map_to : Nat → Nat → Nat → Except MapToError Unit) (allocate : A → Option Nat × A)
    (a : A) (start size : Nat) :
    (∀ mp ∈ (init_heap_range map_to allocate a start size).1, mp.flags = heap_flags)
    ∧ heap_flags = PRESENT ||| WRITABLE ||| USER_ACCESSIBLE
    ∧ heap_flags.testBit 0 = true ∧ heap_flags.testBit 1 = true
    ∧ heap_flags.testBit 2 = true := by
  refine ⟨?_, rfl, by decide, by decide, by decide⟩
  intro mp hmp
  exact init_heap_range_go_flags map_to allocate _ a mp hmp

/-- Witness for C10: the one mapping installed for a one-page window over a
concrete map carries exactly `heap_flags`. -/
theorem init_heap_range_fixed_flags_witness :
    Mapping.flags { page := 0, frame := 4096, flags := heap_flags } = heap_flags :=
  (init_heap_range_fixed_flags ok_map_to SimpleHeapFrameAllocator.allocate_frame
    { memory_regions := demoMap, next := 0 } 0 4096).1
    { page := 0, frame := 4096, flags := heap_flags } (by decide)

/-- C2: for a heap window of `W` bytes at a 4096-aligned start and any frame
source (any state type with an `allocate` step that consumes a frame stream and
bumps a request counter, as both of the repository's sources do), the inclusive
page range covering `[start, start + W)` has exactly `ceil(W/4096)` pages;
mapping the window issues exactly that many frame requests when the stream
suffices (the counter grows by exactly `ceil(W/4096)`), and when the stream is
shorter the function stops at the first exhausted request and returns
`FrameAllocationFailed` rather than silently succeeding partially. -/
theorem init_heap_range_exact_requests {A : Type}
    (map_to : Nat → Nat → Nat → Except MapToError Unit) (allocate : A → Option Nat × A)
    (frames : A → List Nat) (count : A → Nat)
    (hs : ∀ a, (allocate a).1 = (frames a).head?)
    (hf : ∀ a, frames (allocate a).2 = (frames a).tail)
    (hc : ∀ a, count (allocate a).2 = count a + 1)
    (hm : ∀ p f fl, map_to p f fl = Except.ok ())
    (a : A) (start size : Nat) (halign : start % 4096 = 0) (hpos : 0 < size) :
    (page_range_inclusive start size).length = (size + 4095) / 4096
    ∧ ((size + 4095) / 4096 ≤ (frames a).length →
        (init_heap_range map_to allocate a start size).2.1 = Except.ok ()
        ∧ (init_heap_range map_to allocate a start size).1.length = (size + 4095) / 4096
        ∧ count (init_heap_range map_to allocate a start size).2.2
            = count a + (size + 4095) / 4096)
    ∧ ((frames a).length < (size + 4095) / 4096 →
        (init_heap_range map_to allocate a start size).2.1
            = Except.error MapToError.frameAllocationFailed
        ∧ count (init_heap_range map_to allocate a start size).2.2
            = count a + (frames a).length + 1) := by
  have hlen := page_range_inclusive_length start size halign hpos
  have hspec := init_heap_range_go_spec map_to allocate frames count hs hf hc hm
    (page_range_inclusive start size) a
  refine ⟨hlen, ?_, ?_⟩
  · intro hle
    obtain ⟨hok, hl, _, hcount⟩ := hspec.1 (by rw [hlen]; exact hle)
    rw [hlen] at hl hcount
    exact ⟨hok, hl, hcount⟩
  · intro hlt
    obtain ⟨herr, hcount⟩ := hspec.2 (by rw [hlen]; exact hlt)
    exact ⟨herr, hcount⟩

/-- Witness for C2: mapping a two-page window over a concrete three-frame map
with the bootstrap source succeeds and bumps the source's request counter by
exactly two. -/
theorem init_heap_range_exact_requests_witness :
    (init_heap_range ok_map_to SimpleHeapFrameAllocator.allocate_frame
        { memory_regions := demoMap, next := 0 } 0 8192).2.1 = Except.ok ()
    ∧ (init_heap_range ok_map_to SimpleHeapFrameAllocator.allocate_frame
        { memory_regions := demoMap, next := 0 } 0 8192).2.2.next
        = 0 + (8192 + 4095) / 4096 := by
  have h := init_heap_range_exact_requests ok_map_to
    SimpleHeapFrameAllocator.allocate_frame SimpleHeapFrameAllocator.remaining
    (fun s => s.next) (fun _ => rfl) (fun s => simple_stream_tail s) (fun _ => rfl)
    (fun _ _ _ => rfl) { memory_regions := demoMap, next := 0 } 0 8192 rfl (by decide)
  exact ⟨(h.2.1 (by decide)).1, (h.2.1 (by decide)).2.2⟩

end AkjoOS
